import Mathlib

/-!
Shallow embedding of the Simple-RISC assembler (src/app.py): the two-pass
pipeline `assemble_from_string` and the per-line encoder `parse_instruction`,
together with the Python string/number primitives they rely on.

Modelling conventions:
* Python strings are Lean `String`s; helper `py...` functions model the exact
  Python primitives used by the source (`re.split("[\s,]+", ...)`, `str.find`,
  slicing with negative indices, `int(...)`, `str.rstrip("uh")`,
  `format(n, "016b")` / `format(n, "27b")`, `str.ljust`).
* A Python exception (the uncaught `ValueError` from `int(...)` and the
  `IndexError` from `parts[3]` in the ld/st block) is modelled as `.error`;
  a normal return is `.ok`.  `parse_instruction` returning `None` for a
  label-only line is `.ok none`.
* The label dictionary is an association list; insertion prepends, lookup
  takes the first hit, so a later write to the same key wins, matching dict
  assignment.
-/

def pyIsSpace (c : Char) : Bool :=
  c = ' ' || c = '\t' || c = '\n' || c = '\r' || c = '\x0b' || c = '\x0c'

def isDelim (c : Char) : Bool := pyIsSpace c || c = ','

/-- Tokeniser for `[x.strip() for x in re.split(r"[\s,]+", line) if x]`:
split on runs of whitespace and commas, dropping empty tokens (the
`.strip()` is the identity on such tokens, which contain no whitespace). -/
def tokensAux : List Char → List Char → List String
  | [], acc => if acc.isEmpty then [] else [String.mk acc.reverse]
  | c :: cs, acc =>
    if isDelim c then
      if acc.isEmpty then tokensAux cs [] else String.mk acc.reverse :: tokensAux cs []
    else tokensAux cs (c :: acc)

def pyTokens (s : String) : List String := tokensAux s.data []

def pyFindAux : List Char → Char → Option Nat
  | [], _ => none
  | c :: cs, d => if c = d then some 0 else (pyFindAux cs d).map (· + 1)

/-- Python `s.find(c)`: index of the first occurrence, `-1` if absent. -/
def pyFind (s : String) (c : Char) : Int :=
  match pyFindAux s.data c with
  | some n => (n : Int)
  | none => -1

/-- Python slice `s[i:j]` with the usual negative-index and clamping rules. -/
def pySlice (s : String) (i j : Int) : String :=
  let n : Int := (s.data.length : Int)
  let i' := if i < 0 then max (n + i) 0 else min i n
  let j' := if j < 0 then max (n + j) 0 else min j n
  String.mk ((s.data.drop i'.toNat).take (j' - i').toNat)

def pySliceFrom (s : String) (i : Int) : String := pySlice s i (s.data.length : Int)

def pySliceTo (s : String) (j : Int) : String := pySlice s 0 j

def pyStartsB (s p : String) : Bool := p.data.isPrefixOf s.data

def pyEndsWith (s : String) (c : Char) : Bool := s.data.getLast? == some c

/-- Python `s.rstrip("uh")`: drop every trailing 'u' or 'h'. -/
def pyRstripUH (s : String) : String :=
  String.mk ((s.data.reverse.dropWhile (fun c => c = 'u' || c = 'h')).reverse)

def pyStrip (s : String) : String :=
  String.mk (((s.data.dropWhile pyIsSpace).reverse.dropWhile pyIsSpace).reverse)

def pyIsBlank (s : String) : Bool := s.data.all pyIsSpace

def digitsVal (l : List Char) : Nat :=
  l.foldl (fun a c => 10 * a + (c.toNat - '0'.toNat)) 0

/-- Python `int(tok)` on a whitespace-free token: an optional sign followed by
a nonempty run of decimal digits; anything else raises `ValueError`,
modelled as `none`. -/
def pyInt (s : String) : Option Int :=
  match s.data with
  | [] => none
  | '+' :: ds =>
    if ds ≠ [] ∧ ds.all Char.isDigit then some ((digitsVal ds : Nat) : Int) else none
  | '-' :: ds =>
    if ds ≠ [] ∧ ds.all Char.isDigit then some (-((digitsVal ds : Nat) : Int)) else none
  | ds =>
    if ds.all Char.isDigit then some ((digitsVal ds : Nat) : Int) else none

/-- Binary digits of a natural number, most significant first; the first
argument is structural fuel (any fuel `≥ n` gives the true digits). -/
def natBinAux : Nat → Nat → List Char
  | _, 0 => []
  | 0, _ + 1 => []
  | f + 1, n + 1 =>
    natBinAux f ((n + 1) / 2) ++ [if (n + 1) % 2 = 1 then '1' else '0']

def natBin (n : Nat) : List Char := if n = 0 then ['0'] else natBinAux n n

def padZeroL (w : Nat) (l : List Char) : List Char :=
  List.replicate (w - l.length) '0' ++ l

/-- Python `format(v, "0{w}b")` (e.g. `f"{v:016b}"`): zero-padded to width `w`;
a negative value is rendered with a leading minus sign inside the width. -/
def pyFormatB0 (w : Nat) (v : Int) : String :=
  if 0 ≤ v then String.mk (padZeroL w (natBin v.toNat))
  else String.mk ('-' :: padZeroL (w - 1) (natBin (-v).toNat))

/-- Python `format(v, "{w}b")` (e.g. `f"{v:27b}"`): right-aligned in a field of
width `w`, padded with SPACES, no twos complement for negative values. -/
def pyFormatB (w : Nat) (v : Int) : String :=
  let core := if 0 ≤ v then natBin v.toNat else '-' :: natBin (-v).toNat
  String.mk (List.replicate (w - core.length) ' ' ++ core)

def fmt4 (n : Nat) : String := pyFormatB0 4 ((n : Nat) : Int)

def pyLjust (s : String) (w : Nat) (c : Char) : String :=
  s ++ String.mk (List.replicate (w - s.length) c)

/-- Opcode table `opcode_map` from src/app.py lines 108-114. -/
def opcode_map : List (String × String) :=
  [("add", "00000"), ("sub", "00001"), ("mul", "00010"), ("div", "00011"),
   ("mod", "00100"), ("cmp", "00101"), ("and", "00110"), ("or", "00111"),
   ("not", "01000"), ("mov", "01001"), ("lsl", "01010"), ("lsr", "01011"),
   ("asr", "01100"), ("nop", "01101"), ("ld", "01110"), ("st", "01111"),
   ("beq", "10000"), ("bgt", "10001"), ("b", "10010"), ("call", "10011"),
   ("ret", "10100"), ("hlt", "11111")]

/-- Register table, `registers` from src/app.py line 115 (r0..r15). -/
def registers : List (String × Nat) :=
  (List.range 16).map (fun i => ("r" ++ toString i, i))

/-- Twos-complement shift used for 16-bit immediates:
`if imm_val < 0: imm_val = (1 << 16) + imm_val`. -/
def twos16 (v : Int) : Int := if v < 0 then 65536 + v else v

/-- Twos-complement shift for the 4-bit ld/st displacement. -/
def twos4 (v : Int) : Int := if v < 0 then 16 + v else v

/-- Twos-complement shift for the 27-bit label branch offset. -/
def twos27 (v : Int) : Int := if v < 0 then 134217728 + v else v

/-! Word builders: one per `return` expression of `parse_instruction` that
produces an encoded word (the f-string plus optional `.ljust(32, '0')`). -/

/-- Line 157 word: opcode, flag 0, rd, rs1, rs2, left-justified to 32 with zeros. -/
def arith_reg_word (opcode : String) (rd rs1 rs2 : Nat) : String :=
  pyLjust (opcode ++ "0" ++ fmt4 rd ++ fmt4 rs1 ++ fmt4 rs2) 32 '0'

/-- Lines 166-170 word: opcode, flag 1, rd, rs1, the 2-bit modifier field
(one of "01", "10", "00"), then the 16-bit zero-padded immediate. -/
def arith_imm_word (opcode : String) (rd rs1 : Nat) (kind : String) (imm_val : Int) : String :=
  opcode ++ "1" ++ fmt4 rd ++ fmt4 rs1 ++ kind ++ pyFormatB0 16 imm_val

/-- Line 175 word: the bare opcode left-justified to 32 with zeros. -/
def zero_word (opcode : String) : String := pyLjust opcode 32 '0'

/-- Line 187 word: label-resolved branch, opcode then zero-padded 27-bit offset. -/
def branch_word_label (opcode : String) (offset : Int) : String :=
  opcode ++ pyFormatB0 27 offset

/-- Line 191 word: literal-offset branch, opcode then a 27-wide field WITHOUT
the zero-pad flag, so the field is space-padded. -/
def branch_word_lit (opcode : String) (offset : Int) : String :=
  opcode ++ pyFormatB 27 offset

/-- Line 207 word: cmp register form. -/
def cmp_reg_word (opcode : String) (rd rs : Nat) : String :=
  pyLjust (opcode ++ "00000" ++ fmt4 rd ++ fmt4 rs) 32 '0'

/-- Lines 216-220 word: cmp immediate form. -/
def cmp_imm_word (opcode : String) (rd : Nat) (kind : String) (imm_val : Int) : String :=
  opcode ++ "10000" ++ fmt4 rd ++ kind ++ pyFormatB0 16 imm_val

/-- Line 235 word: not/mov register form. -/
def movnot_reg_word (opcode : String) (rd rs : Nat) : String :=
  pyLjust (opcode ++ "0" ++ fmt4 rd ++ "0000" ++ fmt4 rs) 32 '0'

/-- Lines 244-248 word: not/mov immediate form. -/
def movnot_imm_word (opcode : String) (rd : Nat) (kind : String) (imm_val : Int) : String :=
  opcode ++ "1" ++ fmt4 rd ++ "0000" ++ kind ++ pyFormatB0 16 imm_val

/-- Lines 274 and 290 word: ld/st register-index form. -/
def ldst_reg_word (opcode : String) (rd rbase rindex : Nat) : String :=
  pyLjust (opcode ++ "0" ++ fmt4 rd ++ fmt4 rbase ++ fmt4 rindex) 32 '0'

/-- Lines 279 and 295 word: ld/st immediate-displacement form. -/
def ldst_imm_word (opcode : String) (rd rbase : Nat) (imm_val : Int) : String :=
  pyLjust (opcode ++ "1" ++ fmt4 rd ++ fmt4 rbase ++ pyFormatB0 4 imm_val) 32 '0'

/-- List indexing that raises IndexError when out of range (only reachable
at index 3 in the ld/st block). -/
def idx (xs : List String) (i : Nat) : Except String String :=
  match xs.get? i with
  | some v => .ok v
  | none => .error "IndexError: list index out of range"

/-- Lines 145-170: the ArithLogic block of `parse_instruction`. -/
def arith_case (opcode modifier instr : String) (parts : List String) (line : String) :
    String :=
  if parts.length < 4 then
    "Error: Missing operands for instruction " ++ "\x27" ++ instr ++ "\x27 in line: " ++ line
  else if parts.length > 4 then
    "Error: Unexpected operands for instruction " ++ "\x27" ++ instr ++ "\x27 in line: " ++ line
  else
    let p1 := (parts.get? 1).getD ""
    let p2 := (parts.get? 2).getD ""
    let p3 := (parts.get? 3).getD ""
    if (List.lookup p1 registers).isNone || (List.lookup p2 registers).isNone then
      "Error: Invalid register(s) in " ++ "\x27" ++ instr ++ "\x27 in line: " ++ line
    else
      let rd := (List.lookup p1 registers).getD 0
      let rs1 := (List.lookup p2 registers).getD 0
      match List.lookup p3 registers with
      | some rs2 => arith_reg_word opcode rd rs1 rs2
      | none =>
        match pyInt p3 with
        | none =>
          "Error: Invalid immediate value " ++ "\x27" ++ p3 ++ "\x27 for " ++ "\x27" ++
            instr ++ "\x27 in line: " ++ line
        | some v =>
          let imm_val := twos16 v
          if modifier = "u" then arith_imm_word opcode rd rs1 "01" imm_val
          else if modifier = "h" then arith_imm_word opcode rd rs1 "10" imm_val
          else arith_imm_word opcode rd rs1 "00" imm_val

/-- Lines 172-175: the nop/ret/hlt block. -/
def zero_case (opcode instr : String) (parts : List String) (line : String) : String :=
  if parts.length > 1 then
    "Error: Unexpected operands for " ++ "\x27" ++ instr ++ "\x27 in line: " ++ line
  else zero_word opcode

/-- Lines 177-193: the call/b/beq/bgt block. -/
def branch_case (opcode instr : String) (parts : List String) (line : String)
    (address : Int) (labels_dict : List (String × Int)) : String :=
  if parts.length < 2 then
    "Error: Missing offset for branch instruction " ++ "\x27" ++ instr ++ "\x27 in line: " ++ line
  else if parts.length > 2 then
    "Error: Unexpected operands for " ++ "\x27" ++ instr ++ "\x27 in line: " ++ line
  else
    let p1 := (parts.get? 1).getD ""
    match List.lookup p1 labels_dict with
    | some laddr => branch_word_label opcode (twos27 (laddr - address))
    | none =>
      match pyInt p1 with
      | some offset => branch_word_lit opcode offset
      | none => "Error: Label " ++ "\x27" ++ p1 ++ "\x27 not found for branch instruction"

/-- Lines 195-220: the cmp block. -/
def cmp_case (opcode modifier instr : String) (parts : List String) (line : String) :
    String :=
  if parts.length < 3 then
    "Error: Missing operands for " ++ "\x27" ++ instr ++ "\x27 in line: " ++ line
  else if parts.length > 3 then
    "Error: Unexpected operands for " ++ "\x27" ++ instr ++ "\x27 in line: " ++ line
  else
    let p1 := (parts.get? 1).getD ""
    let p2 := (parts.get? 2).getD ""
    if (List.lookup p1 registers).isNone then
      "Error: Invalid register(s) in " ++ "\x27" ++ instr ++ "\x27 in line: " ++ line
    else
      let rd := (List.lookup p1 registers).getD 0
      match List.lookup p2 registers with
      | some rs => cmp_reg_word opcode rd rs
      | none =>
        match pyInt p2 with
        | none =>
          "Error: Invalid immediate value " ++ "\x27" ++ p2 ++ "\x27 for " ++ "\x27" ++
            instr ++ "\x27 in line: " ++ line
        | some v =>
          let imm_val := twos16 v
          if modifier = "u" then cmp_imm_word opcode rd "01" imm_val
          else if modifier = "h" then cmp_imm_word opcode rd "10" imm_val
          else cmp_imm_word opcode rd "00" imm_val

/-- Lines 223-248: the not/mov block. -/
def movnot_case (opcode modifier instr : String) (parts : List String) (line : String) :
    String :=
  if parts.length < 3 then
    "Error: Missing operands for " ++ "\x27" ++ instr ++ "\x27 in line: " ++ line
  else if parts.length > 3 then
    "Error: Unexpected operands for " ++ "\x27" ++ instr ++ "\x27 in line: " ++ line
  else
    let p1 := (parts.get? 1).getD ""
    let p2 := (parts.get? 2).getD ""
    if (List.lookup p1 registers).isNone then
      "Error: Invalid register(s) in " ++ "\x27" ++ instr ++ "\x27 in line: " ++ line
    else
      let rd := (List.lookup p1 registers).getD 0
      match List.lookup p2 registers with
      | some rs => movnot_reg_word opcode rd rs
      | none =>
        match pyInt p2 with
        | none =>
          "Error: Invalid immediate value " ++ "\x27" ++ p2 ++ "\x27 for " ++ "\x27" ++
            instr ++ "\x27 in line: " ++ line
        | some v =>
          let imm_val := twos16 v
          if modifier = "u" then movnot_imm_word opcode rd "01" imm_val
          else if modifier = "h" then movnot_imm_word opcode rd "10" imm_val
          else movnot_imm_word opcode rd "00" imm_val

/-- Lines 250-295: the ld/st block.  The two `int(...)` calls here are NOT
wrapped in `try`, and `parts[3]` is read when only 3 tokens exist, so this
block can raise (`.error`). -/
def ldst_case (opcode instr : String) (parts : List String) (line : String) :
    Except String String :=
  if parts.length < 3 then
    .ok ("Error: Missing operands for " ++ "\x27" ++ instr ++ "\x27 in line: " ++ line)
  else if parts.length > 4 then
    .ok ("Error: Unexpected operands for " ++ "\x27" ++ instr ++ "\x27 in line: " ++ line)
  else
    let p1 := (parts.get? 1).getD ""
    match List.lookup p1 registers with
    | none => .ok ("Error: Invalid register(s) in " ++ "\x27" ++ instr ++ "\x27 in line: " ++ line)
    | some rd =>
      let rs2 := (parts.get? 2).getD ""
      if pyStartsB rs2 "[" then
        let a := pyFind rs2 '['
        let temp := pySliceFrom rs2 (a + 1)
        match List.lookup temp registers with
        | none =>
          .ok ("Error: Invalid register(s) in " ++ "\x27" ++ instr ++ "\x27 in line: " ++ line)
        | some rss1 =>
          match idx parts 3 with
          | .error e => .error e
          | .ok rs3 =>
            let b := pyFind rs3 ']'
            let temp2 := pySliceTo rs3 b
            match List.lookup temp2 registers with
            | some r2 => .ok (ldst_reg_word opcode rd rss1 r2)
            | none =>
              match pyInt temp2 with
              | none => .error ("ValueError: invalid literal for int with base 10: " ++ temp2)
              | some imm_val => .ok (ldst_imm_word opcode rd rss1 (twos4 imm_val))
      else
        let a := pyFind rs2 '['
        let b := pyFind rs2 ']'
        let rss1 := pySliceTo rs2 a
        match List.lookup (pySlice rs2 (a + 1) b) registers with
        | none =>
          .ok ("Error: Invalid register(s) in " ++ "\x27" ++ instr ++ "\x27 in line: " ++ line)
        | some rss2 =>
          match List.lookup rss1 registers with
          | some r1 => .ok (ldst_reg_word opcode rd rss2 r1)
          | none =>
            match pyInt rss1 with
            | none => .error ("ValueError: invalid literal for int with base 10: " ++ rss1)
            | some imm_val => .ok (ldst_imm_word opcode rd rss2 (twos4 imm_val))

/-- Lines 118-122: strip a leading `label:` (everything up to and including
the first colon) from the raw line. -/
def strip_label_text (line1 : String) : String :=
  if line1.data.contains ':' then pySliceFrom line1 (pyFind line1 ':' + 1) else line1

/-- Model of `parse_instruction(line1, address, labels_dict)` (lines 117-296).
`.ok none` models the `None` return for label-only lines; `.ok (some s)`
models a returned string (an encoded word or an `Error: ...` diagnostic);
`.error` models an uncaught Python exception. -/
def parse_instruction (line1 : String) (address : Int)
    (labels_dict : List (String × Int)) : Except String (Option String) :=
  let line := strip_label_text line1
  match pyTokens line with
  | [] => .ok none
  | instr :: rest =>
    let parts := instr :: rest
    let modifier := if pyEndsWith instr 'u' then "u"
      else if pyEndsWith instr 'h' then "h" else ""
    let base_instr := pyRstripUH instr
    match List.lookup base_instr opcode_map with
    | none =>
      .ok (some ("Error: Unknown instruction " ++ "\x27" ++ instr ++ "\x27 in line: " ++ line))
    | some opcode =>
      if base_instr ∈ ["add", "sub", "mul", "div", "mod", "and", "or", "lsl", "lsr", "asr"] then
        .ok (some (arith_case opcode modifier instr parts line))
      else if instr ∈ ["nop", "ret", "hlt"] then
        .ok (some (zero_case opcode instr parts line))
      else if instr ∈ ["call", "b", "beq", "bgt"] then
        .ok (some (branch_case opcode instr parts line address labels_dict))
      else if instr = "cmp" then
        .ok (some (cmp_case opcode modifier instr parts line))
      else if instr ∈ ["not", "mov"] then
        .ok (some (movnot_case opcode modifier instr parts line))
      else if instr ∈ ["ld", "st"] then
        (ldst_case opcode instr parts line).map some
      else
        .ok (some ("Error: Unknown instruction " ++ "\x27" ++ instr ++ "\x27 in line: " ++ line))

/-- Python `str.splitlines` restricted to `'\n'` separators: a trailing
newline produces no final empty line. -/
def splitLinesAux : List Char → List Char → List String
  | [], acc => if acc.isEmpty then [] else [String.mk acc.reverse]
  | c :: cs, acc =>
    if c = '\n' then String.mk acc.reverse :: splitLinesAux cs []
    else splitLinesAux cs (c :: acc)

def pySplitLines (s : String) : List String := splitLinesAux s.data []

/-- Pass 1 (lines 302-314): record the stripped head of every colon line as a
label, and increment the address for EVERY non-blank line.  Returns the
label dictionary and the final address counter. -/
def first_pass : List String → Int → List (String × Int) → List (String × Int) × Int
  | [], address, dict => (dict, address)
  | line :: rest, address, dict =>
    if pyIsBlank line then first_pass rest address dict
    else
      let dict' := if line.data.contains ':' then
          (pyStrip (pySliceTo line (pyFind line ':')), address) :: dict
        else dict
      first_pass rest (address + 1) dict'

/-- Diagnostic line formatting of line 330; the arrow glyphs reproduce the
bytes present in the source file. -/
def error_line (line_number : Nat) (line binary_code : String) : String :=
  "Error in line " ++ toString line_number ++ ": " ++ pyStrip line ++ " â†’ " ++ binary_code

/-- Pass 2 (lines 316-335): encode each non-blank line, collecting words and
formatted diagnostics; the address advances only when `binary_code` does not
start with "Error".  Also returns the final address counter. -/
def second_pass (labels_dict : List (String × Int)) :
    List String → Nat → Int → Except String (List String × Bool × Int)
  | [], _, address => .ok ([], false, address)
  | line :: rest, line_number, address =>
    if pyIsBlank line then second_pass labels_dict rest (line_number + 1) address
    else
      match parse_instruction line address labels_dict with
      | .error e => .error e
      | .ok none => second_pass labels_dict rest (line_number + 1) address
      | .ok (some binary_code) =>
        if pyStartsB binary_code "Error" then
          match second_pass labels_dict rest (line_number + 1) address with
          | .error e => .error e
          | .ok (res, _, addr') =>
            .ok (error_line line_number line binary_code :: res, true, addr')
        else
          match second_pass labels_dict rest (line_number + 1) (address + 1) with
          | .error e => .error e
          | .ok (res, he, addr') => .ok (binary_code :: res, he, addr')

/-- Model of `assemble_from_string(asm_code)` (lines 298-336): pass 1 then pass 2;
returns the result list and the `has_error` flag (`.error` when the Python
code would raise). -/
def assemble_from_string (asm_code : String) : Except String (List String × Bool) :=
  let lines := pySplitLines asm_code
  let labels_dict := (first_pass lines 0 []).1
  match second_pass labels_dict lines 1 0 with
  | .error e => .error e
  | .ok (res, he, _) => .ok (res, he)

/-! Specification-side definitions used to state the claims. -/

/-- Value of a bit string read as an unsigned big-endian binary number. -/
def bitsToNat (l : List Char) : Nat :=
  l.foldl (fun a c => 2 * a + (if c = '1' then 1 else 0)) 0

/-- Decoding of a 16-bit field under the twos-complement rule. -/
def decode16_twos (s : String) : Int :=
  let n := bitsToNat s.data
  if 32768 ≤ n then (n : Int) - 65536 else (n : Int)

/-- The property claimed of every Encoded Word: exactly 32 characters, each
one of the two binary digits. -/
def isBin32 (s : String) : Prop :=
  s.data.length = 32 ∧ ∀ c ∈ s.data, c = '0' ∨ c = '1'

/-- A diagnostic starting with the unknown-instruction text. -/
def isUnknownErr (s : String) : Prop :=
  s.data.take 26 = ("Error: Unknown instruction").data

/-- A string consisting only of the two binary digits. -/
def binStr (s : String) : Prop := ∀ c ∈ s.data, c = '0' ∨ c = '1'

/-- A 5-character binary opcode string (every entry of `opcode_map`). -/
def opBin5 (op : String) : Prop :=
  op.data.length = 5 ∧ ∀ c ∈ op.data, c = '0' ∨ c = '1'

/-- A 2-character binary modifier field ("00", "01" or "10"). -/
def kindBin2 (k : String) : Prop :=
  k.data.length = 2 ∧ ∀ c ∈ k.data, c = '0' ∨ c = '1'

instance (s : String) : Decidable (binStr s) := by unfold binStr; infer_instance

instance (s : String) : Decidable (isBin32 s) := by unfold isBin32; infer_instance

instance (s : String) : Decidable (isUnknownErr s) := by unfold isUnknownErr; infer_instance

instance (s : String) : Decidable (opBin5 s) := by unfold opBin5; infer_instance

instance (s : String) : Decidable (kindBin2 s) := by unfold kindBin2; infer_instance

/-! Lemmas about the binary rendering primitives. -/

theorem natBinAux_n0 (f : Nat) : natBinAux f 0 = [] := by cases f <;> rfl

theorem natBinAux_f0 (n : Nat) : natBinAux 0 n = [] := by cases n <;> rfl

theorem natBinAux_succ (f n : Nat) :
    natBinAux (f + 1) (n + 1) =
      natBinAux f ((n + 1) / 2) ++ [if (n + 1) % 2 = 1 then '1' else '0'] := rfl

theorem natBinAux_len_le :
    ∀ (f n k : Nat), n ≤ f → n < 2 ^ k → (natBinAux f n).length ≤ k := by
  intro f
  induction f with
  | zero =>
    intro n k _ _
    simp [natBinAux_f0]
  | succ f ih =>
    intro n k h1 h2
    cases n with
    | zero => simp [natBinAux_n0]
    | succ m =>
      cases k with
      | zero => omega
      | succ k' =>
        rw [natBinAux_succ, List.length_append]
        have hrec : (m + 1) / 2 ≤ f := by omega
        have hlt : (m + 1) / 2 < 2 ^ k' := by
          have h2' : m + 1 < 2 ^ k' * 2 := by
            have : (2 : Nat) ^ (k' + 1) = 2 ^ k' * 2 := pow_succ 2 k'
            omega
          omega
        have := ih ((m + 1) / 2) k' hrec hlt
        simp only [List.length_singleton]
        omega

theorem natBinAux_bits :
    ∀ (f n : Nat) (c : Char), c ∈ natBinAux f n → c = '0' ∨ c = '1' := by
  intro f
  induction f with
  | zero =>
    intro n c hc
    rw [natBinAux_f0] at hc
    simp at hc
  | succ f ih =>
    intro n c hc
    cases n with
    | zero => rw [natBinAux_n0] at hc; simp at hc
    | succ m =>
      rw [natBinAux_succ] at hc
      rcases List.mem_append.mp hc with h | h
      · exact ih _ _ h
      · simp at h
        split at h <;> simp [h]

theorem bitsToNat_append_bit (l : List Char) (c : Char) :
    bitsToNat (l ++ [c]) = 2 * bitsToNat l + (if c = '1' then 1 else 0) := by
  unfold bitsToNat
  rw [List.foldl_append]
  rfl

theorem natBinAux_val : ∀ (f n : Nat), n ≤ f → bitsToNat (natBinAux f n) = n := by
  intro f
  induction f with
  | zero =>
    intro n h
    interval_cases n
    rfl
  | succ f ih =>
    intro n h
    cases n with
    | zero => rw [natBinAux_n0]; rfl
    | succ m =>
      rw [natBinAux_succ, bitsToNat_append_bit]
      have hrec : (m + 1) / 2 ≤ f := by omega
      rw [ih _ hrec]
      rcases Nat.mod_two_eq_zero_or_one (m + 1) with h2 | h2 <;> rw [h2] <;> simp <;> omega

theorem natBin_val (n : Nat) : bitsToNat (natBin n) = n := by
  unfold natBin
  split
  · simp_all; rfl
  · exact natBinAux_val n n le_rfl

theorem natBin_len_le (n k : Nat) (hk : 0 < k) (h : n < 2 ^ k) :
    (natBin n).length ≤ k := by
  unfold natBin
  split
  · simpa using hk
  · exact natBinAux_len_le n n k le_rfl h

theorem natBin_bits (n : Nat) (c : Char) (hc : c ∈ natBin n) : c = '0' ∨ c = '1' := by
  unfold natBin at hc
  split at hc
  · simp at hc; simp [hc]
  · exact natBinAux_bits n n c hc

theorem bitsToNat_zeros (k : Nat) (l : List Char) :
    bitsToNat (List.replicate k '0' ++ l) = bitsToNat l := by
  induction k with
  | zero => rfl
  | succ k ih =>
    rw [List.replicate_succ, List.cons_append]
    show bitsToNat (List.replicate k '0' ++ l) = bitsToNat l
    exact ih

theorem padZeroL_length (w : Nat) (l : List Char) (h : l.length ≤ w) :
    (padZeroL w l).length = w := by
  unfold padZeroL
  rw [List.length_append, List.length_replicate]
  omega

theorem padZeroL_bits (w : Nat) (l : List Char) (hl : ∀ c ∈ l, c = '0' ∨ c = '1') :
    ∀ c ∈ padZeroL w l, c = '0' ∨ c = '1' := by
  intro c hc
  unfold padZeroL at hc
  rcases List.mem_append.mp hc with h | h
  · left; exact (List.eq_of_mem_replicate h)
  · exact hl c h

theorem padZeroL_val (w : Nat) (l : List Char) :
    bitsToNat (padZeroL w l) = bitsToNat l := bitsToNat_zeros _ _

theorem toNat_lt_pow {v : Int} {w : Nat} (h0 : 0 ≤ v) (hv : v < (2 : Int) ^ w) :
    v.toNat < 2 ^ w := by
  have : ((v.toNat : Int)) < ((2 ^ w : Nat) : Int) := by
    rw [Int.toNat_of_nonneg h0]
    exact_mod_cast hv
  exact_mod_cast this

theorem fmtB0_data (w : Nat) (v : Int) (h0 : 0 ≤ v) :
    (pyFormatB0 w v).data = padZeroL w (natBin v.toNat) := by
  unfold pyFormatB0
  rw [if_pos h0]

theorem fmtB0_spec (w : Nat) (v : Int) (hw : 0 < w) (h0 : 0 ≤ v)
    (hv : v < (2 : Int) ^ w) :
    (pyFormatB0 w v).data.length = w ∧
      (∀ c ∈ (pyFormatB0 w v).data, c = '0' ∨ c = '1') ∧
      bitsToNat (pyFormatB0 w v).data = v.toNat := by
  rw [fmtB0_data w v h0]
  have hlt := toNat_lt_pow h0 hv
  have hlen := natBin_len_le v.toNat w hw hlt
  exact ⟨padZeroL_length w _ hlen, padZeroL_bits w _ (natBin_bits v.toNat),
    by rw [padZeroL_val, natBin_val]⟩

theorem fmt4_spec (n : Nat) (h : n < 16) :
    (fmt4 n).data.length = 4 ∧ (∀ c ∈ (fmt4 n).data, c = '0' ∨ c = '1') := by
  have hv : (n : Int) < (2 : Int) ^ 4 := by norm_num; exact_mod_cast h
  have := fmtB0_spec 4 (n : Int) (by norm_num) (by positivity) hv
  exact ⟨this.1, this.2.1⟩

/-! Lookup-table facts. -/

theorem lookup_mem_values {α β : Type} [BEq α] [LawfulBEq α] :
    ∀ (l : List (α × β)) (k : α) (v : β),
      List.lookup k l = some v → v ∈ l.map Prod.snd := by
  intro l
  induction l with
  | nil => intro k v h; simp [List.lookup] at h
  | cons p t ih =>
    obtain ⟨a, b⟩ := p
    intro k v h
    rw [List.lookup] at h
    rcases hek : (k == a) with _ | _ <;> rw [hek] at h
    · exact List.mem_cons_of_mem _ (ih k v h)
    · simp at h
      simp [h]

theorem opcode_bin5 (k op : String) (h : List.lookup k opcode_map = some op) :
    opBin5 op := by
  have hm := lookup_mem_values opcode_map k op h
  simp only [opcode_map, List.map_cons, List.map_nil, List.mem_cons,
    List.not_mem_nil, or_false] at hm
  rcases hm with rfl | rfl | rfl | rfl | rfl | rfl | rfl | rfl | rfl | rfl | rfl |
    rfl | rfl | rfl | rfl | rfl | rfl | rfl | rfl | rfl | rfl | rfl <;> decide

theorem register_lt16 (k : String) (n : Nat) (h : List.lookup k registers = some n) :
    n < 16 := by
  have hm := lookup_mem_values registers k n h
  simp only [registers, List.map_map, List.mem_map, List.mem_range] at hm
  obtain ⟨i, hi, rfl⟩ := hm
  exact hi

/-! Claim C7: round trip of the 16-bit immediate encoding. -/

/-- C7 (amended): for every immediate in the 16-bit twos-complement range
[-32768, 32767], encoding (negative values shifted by 2^16, rendered as a
zero-padded 16-bit field) followed by twos-complement decoding recovers the
original value.  The full claimed range [-32768, 65535] is impossible: see
the counterexample. -/
theorem c7_thm (v : Int) (h1 : -32768 ≤ v) (h2 : v ≤ 32767) :
    decode16_twos (pyFormatB0 16 (twos16 v)) = v := by
  unfold twos16 decode16_twos
  by_cases hv : v < 0
  · rw [if_pos hv]
    have h0 : (0 : Int) ≤ 65536 + v := by omega
    have hlt : 65536 + v < (2 : Int) ^ 16 := by norm_num; omega
    obtain ⟨-, -, hval⟩ := fmtB0_spec 16 (65536 + v) (by norm_num) h0 hlt
    rw [hval]
    dsimp only
    split <;> omega
  · rw [if_neg hv]
    have h0 : (0 : Int) ≤ v := by omega
    have hlt : v < (2 : Int) ^ 16 := by norm_num; omega
    obtain ⟨-, -, hval⟩ := fmtB0_spec 16 v (by norm_num) h0 hlt
    rw [hval]
    dsimp only
    split <;> omega

/-- C7 counterexample: 40000 and -25536 (both inside the claimed range
[-32768, 65535]) produce the identical 16-bit field, so no decoding rule can
recover the original value across that whole range; under the
twos-complement rule, 40000 itself is not recovered. -/
theorem c7_cex :
    pyFormatB0 16 (twos16 40000) = pyFormatB0 16 (twos16 (-25536)) ∧
      decode16_twos (pyFormatB0 16 (twos16 40000)) ≠ 40000 ∧
      (40000 : Int) ≠ -25536 := by decide

/-- C7 witness: the round trip at the concrete immediate -12345. -/
theorem c7_witness : decode16_twos (pyFormatB0 16 (twos16 (-12345))) = -12345 :=
  c7_thm (-12345) (by norm_num) (by norm_num)

/-! String-building facts used for the word-shape claims. -/

theorem strLength_data (s : String) : s.length = s.data.length := rfl

theorem binStr_append (s t : String) (hs : binStr s) (ht : binStr t) :
    binStr (s ++ t) := by
  intro c hc
  rw [String.data_append] at hc
  rcases List.mem_append.mp hc with h | h
  · exact hs c h
  · exact ht c h

theorem binStr_fmtB0 (w : Nat) (v : Int) (h0 : 0 ≤ v) : binStr (pyFormatB0 w v) := by
  intro c hc
  rw [fmtB0_data w v h0] at hc
  exact padZeroL_bits w _ (natBin_bits v.toNat) c hc

theorem fmtB0_length (w : Nat) (v : Int) (hw : 0 < w) (h0 : 0 ≤ v)
    (hv : v < (2 : Int) ^ w) : (pyFormatB0 w v).length = w := by
  rw [strLength_data]
  exact (fmtB0_spec w v hw h0 hv).1

theorem fmt4_bin (n : Nat) : binStr (fmt4 n) :=
  binStr_fmtB0 4 ((n : Nat) : Int) (by positivity)

theorem fmt4_len (n : Nat) (h : n < 16) : (fmt4 n).length = 4 := by
  apply fmtB0_length 4 _ (by norm_num) (by positivity)
  have : ((n : Int)) < ((16 : Nat) : Int) := by exact_mod_cast h
  norm_num at this ⊢
  exact_mod_cast this

theorem pyLjust_bin32 (s : String) (hs : binStr s) (hl : s.length ≤ 32) :
    isBin32 (pyLjust s 32 '0') := by
  unfold isBin32 pyLjust
  rw [strLength_data] at hl
  constructor
  · rw [String.data_append]
    show (s.data ++ List.replicate (32 - s.length) '0').length = 32
    rw [List.length_append, List.length_replicate, strLength_data]
    omega
  · intro c hc
    rw [String.data_append] at hc
    rcases List.mem_append.mp hc with h | h
    · exact hs c h
    · left
      exact List.eq_of_mem_replicate h

theorem arith_reg_word_bin32 (op : String) (rd rs1 rs2 : Nat) (hop : opBin5 op)
    (h1 : rd < 16) (h2 : rs1 < 16) (h3 : rs2 < 16) :
    isBin32 (arith_reg_word op rd rs1 rs2) := by
  apply pyLjust_bin32
  · exact binStr_append _ _ (binStr_append _ _ (binStr_append _ _
      (binStr_append _ _ hop.2 (by decide)) (fmt4_bin rd)) (fmt4_bin rs1)) (fmt4_bin rs2)
  · simp only [String.length_append]
    rw [fmt4_len rd h1, fmt4_len rs1 h2, fmt4_len rs2 h3]
    have h5 : op.length = 5 := hop.1
    have l0 : ("0" : String).length = 1 := rfl
    omega

theorem arith_imm_word_bin32 (op : String) (rd rs1 : Nat) (kind : String) (imm : Int)
    (hop : opBin5 op) (h1 : rd < 16) (h2 : rs1 < 16) (hk : kindBin2 kind)
    (h0 : 0 ≤ imm) (hi : imm < 65536) : isBin32 (arith_imm_word op rd rs1 kind imm) := by
  have hv : imm < (2 : Int) ^ 16 := hi.trans_le (by norm_num)
  constructor
  · show (arith_imm_word op rd rs1 kind imm).data.length = 32
    rw [← strLength_data]
    unfold arith_imm_word
    simp only [String.length_append]
    rw [fmt4_len rd h1, fmt4_len rs1 h2, fmtB0_length 16 imm (by norm_num) h0 hv]
    have h5 : op.length = 5 := hop.1
    have hk2 : kind.length = 2 := hk.1
    have l1 : ("1" : String).length = 1 := rfl
    omega
  · exact binStr_append _ _ (binStr_append _ _ (binStr_append _ _ (binStr_append _ _
      (binStr_append _ _ hop.2 (by decide)) (fmt4_bin rd)) (fmt4_bin rs1)) hk.2)
      (binStr_fmtB0 16 imm h0)

theorem zero_word_bin32 (op : String) (hop : opBin5 op) : isBin32 (zero_word op) := by
  apply pyLjust_bin32 op hop.2
  have h5 : op.length = 5 := hop.1
  omega

theorem branch_word_label_bin32 (op : String) (off : Int) (hop : opBin5 op)
    (h0 : 0 ≤ off) (hi : off < 134217728) : isBin32 (branch_word_label op off) := by
  have hv : off < (2 : Int) ^ 27 := hi.trans_le (by norm_num)
  constructor
  · show (branch_word_label op off).data.length = 32
    rw [← strLength_data]
    unfold branch_word_label
    simp only [String.length_append]
    rw [fmtB0_length 27 off (by norm_num) h0 hv]
    have h5 : op.length = 5 := hop.1
    omega
  · exact binStr_append _ _ hop.2 (binStr_fmtB0 27 off h0)

theorem cmp_reg_word_bin32 (op : String) (rd rs : Nat) (hop : opBin5 op)
    (h1 : rd < 16) (h2 : rs < 16) : isBin32 (cmp_reg_word op rd rs) := by
  apply pyLjust_bin32
  · exact binStr_append _ _ (binStr_append _ _
      (binStr_append _ _ hop.2 (by decide)) (fmt4_bin rd)) (fmt4_bin rs)
  · simp only [String.length_append]
    rw [fmt4_len rd h1, fmt4_len rs h2]
    have h5 : op.length = 5 := hop.1
    have l0 : ("00000" : String).length = 5 := rfl
    omega

theorem cmp_imm_word_bin32 (op : String) (rd : Nat) (kind : String) (imm : Int)
    (hop : opBin5 op) (h1 : rd < 16) (hk : kindBin2 kind)
    (h0 : 0 ≤ imm) (hi : imm < 65536) : isBin32 (cmp_imm_word op rd kind imm) := by
  have hv : imm < (2 : Int) ^ 16 := hi.trans_le (by norm_num)
  constructor
  · show (cmp_imm_word op rd kind imm).data.length = 32
    rw [← strLength_data]
    unfold cmp_imm_word
    simp only [String.length_append]
    rw [fmt4_len rd h1, fmtB0_length 16 imm (by norm_num) h0 hv]
    have h5 : op.length = 5 := hop.1
    have hk2 : kind.length = 2 := hk.1
    have l0 : ("10000" : String).length = 5 := rfl
    omega
  · exact binStr_append _ _ (binStr_append _ _ (binStr_append _ _
      (binStr_append _ _ hop.2 (by decide)) (fmt4_bin rd)) hk.2)
      (binStr_fmtB0 16 imm h0)

theorem movnot_reg_word_bin32 (op : String) (rd rs : Nat) (hop : opBin5 op)
    (h1 : rd < 16) (h2 : rs < 16) : isBin32 (movnot_reg_word op rd rs) := by
  apply pyLjust_bin32
  · exact binStr_append _ _ (binStr_append _ _ (binStr_append _ _
      (binStr_append _ _ hop.2 (by decide)) (fmt4_bin rd)) (by decide)) (fmt4_bin rs)
  · simp only [String.length_append]
    rw [fmt4_len rd h1, fmt4_len rs h2]
    have h5 : op.length = 5 := hop.1
    have l0 : ("0" : String).length = 1 := rfl
    have l4 : ("0000" : String).length = 4 := rfl
    omega

theorem movnot_imm_word_bin32 (op : String) (rd : Nat) (kind : String) (imm : Int)
    (hop : opBin5 op) (h1 : rd < 16) (hk : kindBin2 kind)
    (h0 : 0 ≤ imm) (hi : imm < 65536) : isBin32 (movnot_imm_word op rd kind imm) := by
  have hv : imm < (2 : Int) ^ 16 := hi.trans_le (by norm_num)
  constructor
  · show (movnot_imm_word op rd kind imm).data.length = 32
    rw [← strLength_data]
    unfold movnot_imm_word
    simp only [String.length_append]
    rw [fmt4_len rd h1, fmtB0_length 16 imm (by norm_num) h0 hv]
    have h5 : op.length = 5 := hop.1
    have hk2 : kind.length = 2 := hk.1
    have l1 : ("1" : String).length = 1 := rfl
    have l4 : ("0000" : String).length = 4 := rfl
    omega
  · exact binStr_append _ _ (binStr_append _ _ (binStr_append _ _ (binStr_append _ _
      (binStr_append _ _ hop.2 (by decide)) (fmt4_bin rd)) (by decide)) hk.2)
      (binStr_fmtB0 16 imm h0)

theorem ldst_reg_word_bin32 (op : String) (rd rb ri : Nat) (hop : opBin5 op)
    (h1 : rd < 16) (h2 : rb < 16) (h3 : ri < 16) :
    isBin32 (ldst_reg_word op rd rb ri) := by
  apply pyLjust_bin32
  · exact binStr_append _ _ (binStr_append _ _ (binStr_append _ _
      (binStr_append _ _ hop.2 (by decide)) (fmt4_bin rd)) (fmt4_bin rb)) (fmt4_bin ri)
  · simp only [String.length_append]
    rw [fmt4_len rd h1, fmt4_len rb h2, fmt4_len ri h3]
    have h5 : op.length = 5 := hop.1
    have l0 : ("0" : String).length = 1 := rfl
    omega

theorem ldst_imm_word_bin32 (op : String) (rd rb : Nat) (imm : Int) (hop : opBin5 op)
    (h1 : rd < 16) (h2 : rb < 16) (h0 : 0 ≤ imm) (hi : imm < 16) :
    isBin32 (ldst_imm_word op rd rb imm) := by
  have hv : imm < (2 : Int) ^ 4 := hi.trans_le (by norm_num)
  apply pyLjust_bin32
  · exact binStr_append _ _ (binStr_append _ _ (binStr_append _ _
      (binStr_append _ _ hop.2 (by decide)) (fmt4_bin rd)) (fmt4_bin rb))
      (binStr_fmtB0 4 imm h0)
  · simp only [String.length_append]
    rw [fmt4_len rd h1, fmt4_len rb h2, fmtB0_length 4 imm (by norm_num) h0 hv]
    have h5 : op.length = 5 := hop.1
    have l1 : ("1" : String).length = 1 := rfl
    omega

/-! Claim C1. -/

/-- C1 (amended): every encoded word produced by a register form, a
zero-operand form, an in-range immediate form (16-bit immediates whose
shifted value lies in [0, 65536), 4-bit displacements in [0, 16)) or a
label-resolved branch with in-range offset is exactly 32 characters over
the binary digits.  Literal branch offsets (space-padded, sign-rendered)
and out-of-range immediates violate the invariant: see the counterexample. -/
theorem c1_thm :
    (∀ op rd rs1 rs2, opBin5 op → rd < 16 → rs1 < 16 → rs2 < 16 →
        isBin32 (arith_reg_word op rd rs1 rs2)) ∧
    (∀ op rd rs1 kind imm, opBin5 op → rd < 16 → rs1 < 16 → kindBin2 kind →
        0 ≤ imm → imm < 65536 → isBin32 (arith_imm_word op rd rs1 kind imm)) ∧
    (∀ op, opBin5 op → isBin32 (zero_word op)) ∧
    (∀ op off, opBin5 op → 0 ≤ off → off < 134217728 →
        isBin32 (branch_word_label op off)) ∧
    (∀ op rd rs, opBin5 op → rd < 16 → rs < 16 → isBin32 (cmp_reg_word op rd rs)) ∧
    (∀ op rd kind imm, opBin5 op → rd < 16 → kindBin2 kind → 0 ≤ imm → imm < 65536 →
        isBin32 (cmp_imm_word op rd kind imm)) ∧
    (∀ op rd rs, opBin5 op → rd < 16 → rs < 16 → isBin32 (movnot_reg_word op rd rs)) ∧
    (∀ op rd kind imm, opBin5 op → rd < 16 → kindBin2 kind → 0 ≤ imm → imm < 65536 →
        isBin32 (movnot_imm_word op rd kind imm)) ∧
    (∀ op rd rb ri, opBin5 op → rd < 16 → rb < 16 → ri < 16 →
        isBin32 (ldst_reg_word op rd rb ri)) ∧
    (∀ op rd rb imm, opBin5 op → rd < 16 → rb < 16 → 0 ≤ imm → imm < 16 →
        isBin32 (ldst_imm_word op rd rb imm)) :=
  ⟨fun op rd rs1 rs2 hop h1 h2 h3 => arith_reg_word_bin32 op rd rs1 rs2 hop h1 h2 h3,
   fun op rd rs1 kind imm hop h1 h2 hk h0 hi =>
     arith_imm_word_bin32 op rd rs1 kind imm hop h1 h2 hk h0 hi,
   fun op hop => zero_word_bin32 op hop,
   fun op off hop h0 hi => branch_word_label_bin32 op off hop h0 hi,
   fun op rd rs hop h1 h2 => cmp_reg_word_bin32 op rd rs hop h1 h2,
   fun op rd kind imm hop h1 hk h0 hi => cmp_imm_word_bin32 op rd kind imm hop h1 hk h0 hi,
   fun op rd rs hop h1 h2 => movnot_reg_word_bin32 op rd rs hop h1 h2,
   fun op rd kind imm hop h1 hk h0 hi =>
     movnot_imm_word_bin32 op rd kind imm hop h1 hk h0 hi,
   fun op rd rb ri hop h1 h2 h3 => ldst_reg_word_bin32 op rd rb ri hop h1 h2 h3,
   fun op rd rb imm hop h1 h2 h0 hi => ldst_imm_word_bin32 op rd rb imm hop h1 h2 h0 hi⟩

/-- C1 counterexample: `add r1, r1, 65536` assembles with no error into a
single output whose length is 33, not 32; and `b 1` assembles with no error
into a 32-character output that is NOT drawn from the binary digits (it is
space-padded). -/
theorem c1_cex :
    ((assemble_from_string "add r1, r1, 65536").map
        (fun r => (r.1.map String.length, r.2))) = .ok ([33], false) ∧
    ((assemble_from_string "b 1").map
        (fun r => (r.1.map (fun w => (w.length, decide (binStr w))), r.2))) =
      .ok ([(32, false)], false) := ⟨rfl, rfl⟩

/-- C1 witness: concrete in-range instances of every conjunct. -/
theorem c1_witness :
    isBin32 (arith_reg_word "00000" 1 2 3) ∧
      isBin32 (arith_imm_word "01010" 1 2 "01" 65535) ∧
      isBin32 (zero_word "11111") ∧
      isBin32 (branch_word_label "10010" 134217727) ∧
      isBin32 (cmp_reg_word "00101" 1 2) ∧
      isBin32 (cmp_imm_word "00101" 3 "10" 0) ∧
      isBin32 (movnot_reg_word "01001" 4 5) ∧
      isBin32 (movnot_imm_word "01000" 6 "00" 123) ∧
      isBin32 (ldst_reg_word "01110" 1 2 3) ∧
      isBin32 (ldst_imm_word "01111" 1 2 15) :=
  ⟨c1_thm.1 _ _ _ _ (by decide) (by decide) (by decide) (by decide),
   c1_thm.2.1 _ _ _ _ _ (by decide) (by decide) (by decide) (by decide) (by decide)
     (by decide),
   c1_thm.2.2.1 _ (by decide),
   c1_thm.2.2.2.1 _ _ (by decide) (by decide) (by decide),
   c1_thm.2.2.2.2.1 _ _ _ (by decide) (by decide) (by decide),
   c1_thm.2.2.2.2.2.1 _ _ _ _ (by decide) (by decide) (by decide) (by decide) (by decide),
   c1_thm.2.2.2.2.2.2.1 _ _ _ (by decide) (by decide) (by decide),
   c1_thm.2.2.2.2.2.2.2.1 _ _ _ _ (by decide) (by decide) (by decide) (by decide)
     (by decide),
   c1_thm.2.2.2.2.2.2.2.2.1 _ _ _ _ (by decide) (by decide) (by decide) (by decide),
   c1_thm.2.2.2.2.2.2.2.2.2 _ _ _ _ (by decide) (by decide) (by decide) (by decide)
     (by decide)⟩

/-! Claim C2. -/

/-- C2: the ld/st block calls `int(...)` without a `try`, so the line
`ld r1 xy[r2]` raises `ValueError` out of `parse_instruction`, and
`assemble_from_string` does not complete on that input. -/
theorem c2_thm :
    parse_instruction "ld r1 xy[r2]" 0 [] =
        .error "ValueError: invalid literal for int with base 10: xy" ∧
      assemble_from_string "ld r1 xy[r2]" =
        .error "ValueError: invalid literal for int with base 10: xy" := ⟨rfl, rfl⟩

/-! Claim C3. -/

/-- C3: pass 1 increments the address for EVERY non-blank line, including
label-only lines.  For the input with two label-only lines followed by
`b y`, the label y is recorded at address 1 even though the next (and only)
instruction has pass-2 address 0, so the self-branch `b y` encodes offset 1
(field 0...01) instead of 0. -/
theorem c3_thm :
    List.lookup "y" (first_pass (pySplitLines "x:\ny:\nb y") 0 []).1 = some 1 ∧
      (first_pass (pySplitLines "x:\ny:\nb y") 0 []).2 = 3 ∧
      assemble_from_string "x:\ny:\nb y" =
        .ok (["10010000000000000000000000000001"], false) := ⟨rfl, rfl, rfl⟩

/-! Claim C8. -/

/-- C8: a negative literal branch offset is NOT converted to twos
complement; the source renders it with `format(offset, "27b")`, producing a
space-padded field with a minus sign, and the word is still emitted as a
successful (non-diagnostic) output. -/
theorem c8_thm :
    parse_instruction "b -1" 0 [] =
        .ok (some "10010                         -1") ∧
      assemble_from_string "b -1" =
        .ok (["10010                         -1"], false) := ⟨rfl, rfl⟩

/-! Claim C4. -/

theorem error_line_startsB (n : Nat) (line bc : String) :
    pyStartsB (error_line n line bc) "Error" = true := by
  have key : ∀ r : List Char,
      List.isPrefixOf (("Error" : String).data) (("Error in line " : String).data ++ r) =
        true := by
    intro r
    show List.isPrefixOf ['E', 'r', 'r', 'o', 'r']
      (['E', 'r', 'r', 'o', 'r', ' ', 'i', 'n', ' ', 'l', 'i', 'n', 'e', ' '] ++ r) = true
    simp [List.isPrefixOf, List.cons_append]
  unfold pyStartsB error_line
  simp only [String.data_append, List.append_assoc]
  exact key _

/-- C4 (amended): the pass-2 address counter advances exactly once per
successfully encoded line: on any completed run of `second_pass`, the final
address equals the initial address plus the number of result entries that
are NOT diagnostics (diagnostic lines and label-only lines consume no
address). -/
theorem c4_thm (labels_dict : List (String × Int)) :
    ∀ (lines : List String) (ln : Nat) (address : Int) (res : List String) (he : Bool)
      (addr' : Int),
      second_pass labels_dict lines ln address = .ok (res, he, addr') →
      addr' = address + res.countP (fun s => !(pyStartsB s "Error")) := by
  intro lines
  induction lines with
  | nil =>
    intro ln address res he addr' h
    simp only [second_pass, Except.ok.injEq, Prod.mk.injEq] at h
    obtain ⟨rfl, -, rfl⟩ := h
    simp [List.countP_nil]
  | cons line rest ih =>
    intro ln address res he addr' h
    simp only [second_pass] at h
    by_cases hb : pyIsBlank line = true
    · rw [if_pos hb] at h
      exact ih _ _ _ _ _ h
    · rw [if_neg hb] at h
      split at h
      · exact absurd h (by simp)
      · exact ih _ _ _ _ _ h
      · rename_i bc hp
        split at h
        · rename_i hs
          split at h
          · exact absurd h (by simp)
          · rename_i res' he' a' hr
            simp only [Except.ok.injEq, Prod.mk.injEq] at h
            obtain ⟨rfl, -, rfl⟩ := h
            have := ih _ _ _ _ _ hr
            rw [List.countP_cons]
            simp [error_line_startsB]
            omega
        · rename_i hs
          split at h
          · exact absurd h (by simp)
          · rename_i res' he' a' hr
            simp only [Except.ok.injEq, Prod.mk.injEq] at h
            obtain ⟨rfl, -, rfl⟩ := h
            have := ih _ _ _ _ _ hr
            rw [List.countP_cons]
            have hs' : pyStartsB bc "Error" = false := by
              revert hs
              cases pyStartsB bc "Error" <;> simp
            simp [hs']
            omega

/-- C4 counterexample: the single instruction line `zz` produces a
diagnostic, and the pass-2 address counter stays at 0 afterwards rather
than advancing to 1 as the claim requires (the second run shows two
successful lines do advance it to 2). -/
theorem c4_cex :
    ((second_pass [] ["zz"] 1 0).map (fun r => (r.1.length, r.2.1, r.2.2))) =
        .ok (1, true, 0) ∧
      ((second_pass [] ["hlt", "hlt"] 1 0).map (fun r => r.2.2)) = .ok 2 := ⟨rfl, rfl⟩

/-- C4 witness: the amended address accounting at a concrete run with one
success and one diagnostic. -/
theorem c4_witness :
    (1 : Int) = 0 + (List.countP (fun s => !(pyStartsB s "Error"))
      ["11111000000000000000000000000000",
       "Error in line 2: zz â†’ Error: Unknown instruction \x27zz\x27 in line: zz"]) :=
  c4_thm [] ["hlt", "zz"] 1 0
    ["11111000000000000000000000000000",
     "Error in line 2: zz â†’ Error: Unknown instruction \x27zz\x27 in line: zz"]
    true 1 rfl

/-! Claim C10. -/

theorem lookup_cons_isSome (k : String) (p : String × Int) (d : List (String × Int))
    (h : (List.lookup k d).isSome = true) : (List.lookup k (p :: d)).isSome = true := by
  obtain ⟨a, b⟩ := p
  rw [List.lookup]
  cases hek : (k == a)
  · exact h
  · rfl

theorem first_pass_lookup_mono :
    ∀ (lines : List String) (addr : Int) (dict : List (String × Int)) (k : String),
      (List.lookup k dict).isSome = true →
      (List.lookup k (first_pass lines addr dict).1).isSome = true := by
  intro lines
  induction lines with
  | nil =>
    intro addr dict k h
    simpa [first_pass] using h
  | cons line rest ih =>
    intro addr dict k h
    simp only [first_pass]
    split
    · exact ih _ _ _ h
    · split
      · exact ih _ _ _ (lookup_cons_isSome _ _ _ h)
      · exact ih _ _ _ h

theorem tokensAux_spec :
    ∀ (cs acc : List Char), (∀ c ∈ acc, isDelim c = false) →
      ∀ tok ∈ tokensAux cs acc, tok ≠ "" ∧ ∀ c ∈ tok.data, isDelim c = false := by
  intro cs
  induction cs with
  | nil =>
    intro acc hacc tok htok
    simp only [tokensAux] at htok
    split at htok
    · simp at htok
    · rename_i hne
      simp only [List.mem_singleton] at htok
      subst htok
      constructor
      · intro he
        have : acc.reverse = ([] : List Char) := congrArg String.data he
        rw [List.reverse_eq_nil_iff] at this
        subst this
        simp at hne
      · intro c hc
        exact hacc c (List.mem_reverse.mp hc)
  | cons d cs ih =>
    intro acc hacc tok htok
    simp only [tokensAux] at htok
    split at htok
    · split at htok
      · exact ih [] (by simp) tok htok
      · rename_i hne
        rcases List.mem_cons.mp htok with rfl | hm
        · constructor
          · intro he
            have : acc.reverse = ([] : List Char) := congrArg String.data he
            rw [List.reverse_eq_nil_iff] at this
            subst this
            simp at hne
          · intro c hc
            exact hacc c (List.mem_reverse.mp hc)
        · exact ih [] (by simp) tok hm
    · rename_i hd
      refine ih (d :: acc) ?_ tok htok
      intro c hc
      rcases List.mem_cons.mp hc with rfl | hc
      · exact Bool.not_eq_true _ ▸ (by simpa using hd)
      · exact hacc c hc

theorem lookup_cons_self (k : String) (v : Int) (d : List (String × Int)) :
    List.lookup k ((k, v) :: d) = some v := by
  rw [List.lookup]
  simp

/-- C10 (amended): pass 1 records, for every non-blank line containing a
colon, the whitespace-stripped text before the first colon as a label key
with no validation (so the empty string and names with internal spaces are
accepted); but every operand token produced by the splitter is nonempty and
free of whitespace and commas, so such degenerate labels can never be
referenced by a branch operand in pass 2 — only labels that are themselves
well-formed tokens are resolvable. -/
theorem c10_thm :
    (∀ (line : String) (rest : List String) (addr : Int) (dict : List (String × Int)),
        pyIsBlank line = false → line.data.contains ':' = true →
        (List.lookup (pyStrip (pySliceTo line (pyFind line ':')))
            (first_pass (line :: rest) addr dict).1).isSome = true) ∧
    (∀ (s tok : String), tok ∈ pyTokens s →
        tok ≠ "" ∧ ∀ c ∈ tok.data, isDelim c = false) := by
  constructor
  · intro line rest addr dict hb hc
    simp only [first_pass]
    rw [if_neg (by simp [hb]), if_pos hc]
    apply first_pass_lookup_mono
    rw [lookup_cons_self]
    rfl
  · intro s tok h
    exact tokensAux_spec s.data [] (by simp) tok h

/-- C10 counterexample: the space-carrying label "x y" is recorded at
address 0, yet the attempted branch reference `b x y` produces a Diagnostic
(operand-count error) instead of resolving the label: the first output of
the batch is a word (does not start with "Error"), the second is a
diagnostic, and has_error is true. -/
theorem c10_cex :
    List.lookup "x y" (first_pass (pySplitLines "x y: hlt\nb x y") 0 []).1 = some 0 ∧
      ((assemble_from_string "x y: hlt\nb x y").map
        (fun r => (r.1.map (fun w => pyStartsB w "Error"), r.2))) =
        .ok ([false, true], true) := ⟨rfl, rfl⟩

/-- C10 witness: the label of "done:" is recorded, and the token "hlt" of
the line "b hlt" is nonempty and delimiter-free. -/
theorem c10_witness :
    (List.lookup (pyStrip (pySliceTo "done:" (pyFind "done:" ':')))
        (first_pass ["done:", "hlt"] 0 []).1).isSome = true ∧
      ("hlt" ≠ "" ∧ ∀ c ∈ ("hlt" : String).data, isDelim c = false) :=
  ⟨c10_thm.1 "done:" ["hlt"] 0 [] (by decide) (by decide),
   c10_thm.2 "b hlt" "hlt" (by decide)⟩

/-! Claim C6. -/

theorem parse_dispatch_branch (line1 : String) (address : Int)
    (labels_dict : List (String × Int)) (mn : String) (rest : List String) (op : String)
    (htok : pyTokens (strip_label_text line1) = mn :: rest)
    (hmn : mn ∈ ["call", "b", "beq", "bgt"])
    (hop : List.lookup (pyRstripUH mn) opcode_map = some op)
    (hna : pyRstripUH mn ∉
      ["add", "sub", "mul", "div", "mod", "and", "or", "lsl", "lsr", "asr"])
    (hnz : mn ∉ ["nop", "ret", "hlt"]) :
    parse_instruction line1 address labels_dict =
      .ok (some (branch_case op mn (mn :: rest) (strip_label_text line1)
        address labels_dict)) := by
  unfold parse_instruction
  dsimp only
  rw [htok]
  simp only [hop]
  rw [if_neg hna, if_neg hnz, if_pos hmn]

theorem branch_case_label (op mn tok : String) (line : String) (address : Int)
    (labels_dict : List (String × Int)) (laddr : Int)
    (hlab : List.lookup tok labels_dict = some laddr) :
    branch_case op mn (mn :: [tok]) line address labels_dict =
      branch_word_label op (twos27 (laddr - address)) := by
  unfold branch_case
  rw [if_neg (by simp), if_neg (by simp)]
  simp only [List.get?_cons_succ, List.get?_cons_zero, Option.getD_some, hlab]

/-- C6: when a branch operand matches a known label and the label-to-address
difference lies in the 27-bit twos-complement range, the emitted word is
the opcode followed by the zero-padded 27-bit field whose unsigned value is
(label_address - current_address) mod 2^27; and the two-line program
`loop: add r1,r1,r1` / `b loop` encodes exactly the claimed words, the
branch field being the 27-bit twos-complement pattern of -1 (all ones). -/
theorem c6_thm (line1 : String) (address : Int) (labels_dict : List (String × Int))
    (mn tok op : String) (laddr : Int)
    (htok : pyTokens (strip_label_text line1) = [mn, tok])
    (hmn : mn ∈ ["call", "b", "beq", "bgt"])
    (hop : List.lookup mn opcode_map = some op)
    (hlab : List.lookup tok labels_dict = some laddr)
    (hlo : -134217728 ≤ laddr - address) (hhi : laddr - address < 134217728) :
    parse_instruction line1 address labels_dict =
        .ok (some (branch_word_label op ((laddr - address) % 134217728))) ∧
      (pyFormatB0 27 ((laddr - address) % 134217728)).length = 27 ∧
      bitsToNat (pyFormatB0 27 ((laddr - address) % 134217728)).data =
        ((laddr - address) % 134217728).toNat ∧
      assemble_from_string "loop: add r1,r1,r1\nb loop" =
        .ok (["00000000010001000100000000000000", "10010111111111111111111111111111"],
          false) := by
  have hm0 : (0 : Int) ≤ (laddr - address) % 134217728 :=
    Int.emod_nonneg _ (by norm_num)
  have hm1 : (laddr - address) % 134217728 < 134217728 :=
    Int.emod_lt_of_pos _ (by norm_num)
  have hv : (laddr - address) % 134217728 < (2 : Int) ^ 27 := hm1.trans_le (by norm_num)
  have htw : twos27 (laddr - address) = (laddr - address) % 134217728 := by
    unfold twos27
    split <;> omega
  refine ⟨?_, fmtB0_length 27 _ (by norm_num) hm0 hv,
    (fmtB0_spec 27 _ (by norm_num) hm0 hv).2.2, by rfl⟩
  fin_cases hmn
  · rw [parse_dispatch_branch line1 address labels_dict "call" [tok] op htok (by decide)
      (by rw [show pyRstripUH "call" = "call" from rfl]; exact hop) (by decide) (by decide)]
    rw [branch_case_label op "call" tok _ address labels_dict laddr hlab, htw]
  · rw [parse_dispatch_branch line1 address labels_dict "b" [tok] op htok (by decide)
      (by rw [show pyRstripUH "b" = "b" from rfl]; exact hop) (by decide) (by decide)]
    rw [branch_case_label op "b" tok _ address labels_dict laddr hlab, htw]
  · rw [parse_dispatch_branch line1 address labels_dict "beq" [tok] op htok (by decide)
      (by rw [show pyRstripUH "beq" = "beq" from rfl]; exact hop) (by decide) (by decide)]
    rw [branch_case_label op "beq" tok _ address labels_dict laddr hlab, htw]
  · rw [parse_dispatch_branch line1 address labels_dict "bgt" [tok] op htok (by decide)
      (by rw [show pyRstripUH "bgt" = "bgt" from rfl]; exact hop) (by decide) (by decide)]
    rw [branch_case_label op "bgt" tok _ address labels_dict laddr hlab, htw]

/-- C6 witness: the backward self-branch `b x` at address 1 with x at 0. -/
theorem c6_witness :
    parse_instruction "b x" 1 [("x", 0)] =
      .ok (some (branch_word_label "10010" (((0 : Int) - 1) % 134217728))) :=
  (c6_thm "b x" 1 [("x", 0)] "b" "x" "10010" 0 (by decide) (by decide) (by decide)
    (by decide) (by decide) (by decide)).1

/-! Dispatch lemmas for the remaining instruction classes. -/

theorem parse_dispatch_arith (line1 : String) (address : Int)
    (labels_dict : List (String × Int)) (mn : String) (rest : List String) (op : String)
    (htok : pyTokens (strip_label_text line1) = mn :: rest)
    (hop : List.lookup (pyRstripUH mn) opcode_map = some op)
    (ha : pyRstripUH mn ∈
      ["add", "sub", "mul", "div", "mod", "and", "or", "lsl", "lsr", "asr"]) :
    parse_instruction line1 address labels_dict =
      .ok (some (arith_case op
        (if pyEndsWith mn 'u' = true then "u"
          else if pyEndsWith mn 'h' = true then "h" else "")
        mn (mn :: rest) (strip_label_text line1))) := by
  unfold parse_instruction
  dsimp only
  rw [htok]
  simp only [hop]
  rw [if_pos ha]

theorem parse_dispatch_zero (line1 : String) (address : Int)
    (labels_dict : List (String × Int)) (mn : String) (rest : List String) (op : String)
    (htok : pyTokens (strip_label_text line1) = mn :: rest)
    (hop : List.lookup (pyRstripUH mn) opcode_map = some op)
    (hna : pyRstripUH mn ∉
      ["add", "sub", "mul", "div", "mod", "and", "or", "lsl", "lsr", "asr"])
    (hz : mn ∈ ["nop", "ret", "hlt"]) :
    parse_instruction line1 address labels_dict =
      .ok (some (zero_case op mn (mn :: rest) (strip_label_text line1))) := by
  unfold parse_instruction
  dsimp only
  rw [htok]
  simp only [hop]
  rw [if_neg hna, if_pos hz]

theorem parse_dispatch_cmp (line1 : String) (address : Int)
    (labels_dict : List (String × Int)) (mn : String) (rest : List String) (op : String)
    (htok : pyTokens (strip_label_text line1) = mn :: rest)
    (hop : List.lookup (pyRstripUH mn) opcode_map = some op)
    (hna : pyRstripUH mn ∉
      ["add", "sub", "mul", "div", "mod", "and", "or", "lsl", "lsr", "asr"])
    (hnz : mn ∉ ["nop", "ret", "hlt"]) (hnb : mn ∉ ["call", "b", "beq", "bgt"])
    (hc : mn = "cmp") :
    parse_instruction line1 address labels_dict =
      .ok (some (cmp_case op
        (if pyEndsWith mn 'u' = true then "u"
          else if pyEndsWith mn 'h' = true then "h" else "")
        mn (mn :: rest) (strip_label_text line1))) := by
  unfold parse_instruction
  dsimp only
  rw [htok]
  simp only [hop]
  rw [if_neg hna, if_neg hnz, if_neg hnb, if_pos hc]

theorem parse_dispatch_movnot (line1 : String) (address : Int)
    (labels_dict : List (String × Int)) (mn : String) (rest : List String) (op : String)
    (htok : pyTokens (strip_label_text line1) = mn :: rest)
    (hop : List.lookup (pyRstripUH mn) opcode_map = some op)
    (hna : pyRstripUH mn ∉
      ["add", "sub", "mul", "div", "mod", "and", "or", "lsl", "lsr", "asr"])
    (hnz : mn ∉ ["nop", "ret", "hlt"]) (hnb : mn ∉ ["call", "b", "beq", "bgt"])
    (hnc : ¬ mn = "cmp") (hm : mn ∈ ["not", "mov"]) :
    parse_instruction line1 address labels_dict =
      .ok (some (movnot_case op
        (if pyEndsWith mn 'u' = true then "u"
          else if pyEndsWith mn 'h' = true then "h" else "")
        mn (mn :: rest) (strip_label_text line1))) := by
  unfold parse_instruction
  dsimp only
  rw [htok]
  simp only [hop]
  rw [if_neg hna, if_neg hnz, if_neg hnb, if_neg hnc, if_pos hm]

theorem parse_dispatch_ldst (line1 : String) (address : Int)
    (labels_dict : List (String × Int)) (mn : String) (rest : List String) (op : String)
    (htok : pyTokens (strip_label_text line1) = mn :: rest)
    (hop : List.lookup (pyRstripUH mn) opcode_map = some op)
    (hna : pyRstripUH mn ∉
      ["add", "sub", "mul", "div", "mod", "and", "or", "lsl", "lsr", "asr"])
    (hnz : mn ∉ ["nop", "ret", "hlt"]) (hnb : mn ∉ ["call", "b", "beq", "bgt"])
    (hnc : ¬ mn = "cmp") (hnm : mn ∉ ["not", "mov"]) (hl : mn ∈ ["ld", "st"]) :
    parse_instruction line1 address labels_dict =
      (ldst_case op mn (mn :: rest) (strip_label_text line1)).map some := by
  unfold parse_instruction
  dsimp only
  rw [htok]
  simp only [hop]
  rw [if_neg hna, if_neg hnz, if_neg hnb, if_neg hnc, if_neg hnm, if_pos hl]

/-! Claim C9. -/

theorem arith_case_low (op m instr : String) (parts : List String) (line : String)
    (h : parts.length < 4) :
    arith_case op m instr parts line =
      "Error: Missing operands for instruction " ++ "\x27" ++ instr ++
        "\x27 in line: " ++ line := by
  unfold arith_case
  rw [if_pos h]

theorem arith_case_high (op m instr : String) (parts : List String) (line : String)
    (h : parts.length > 4) :
    arith_case op m instr parts line =
      "Error: Unexpected operands for instruction " ++ "\x27" ++ instr ++
        "\x27 in line: " ++ line := by
  unfold arith_case
  rw [if_neg (by omega), if_pos h]

theorem zero_case_high (op instr : String) (parts : List String) (line : String)
    (h : parts.length > 1) :
    zero_case op instr parts line =
      "Error: Unexpected operands for " ++ "\x27" ++ instr ++ "\x27 in line: " ++ line := by
  unfold zero_case
  rw [if_pos h]

theorem branch_case_low (op instr : String) (parts : List String) (line : String)
    (address : Int) (labels_dict : List (String × Int)) (h : parts.length < 2) :
    branch_case op instr parts line address labels_dict =
      "Error: Missing offset for branch instruction " ++ "\x27" ++ instr ++
        "\x27 in line: " ++ line := by
  unfold branch_case
  rw [if_pos h]

theorem branch_case_high (op instr : String) (parts : List String) (line : String)
    (address : Int) (labels_dict : List (String × Int)) (h : parts.length > 2) :
    branch_case op instr parts line address labels_dict =
      "Error: Unexpected operands for " ++ "\x27" ++ instr ++ "\x27 in line: " ++ line := by
  unfold branch_case
  rw [if_neg (by omega), if_pos h]

theorem cmp_case_low (op m instr : String) (parts : List String) (line : String)
    (h : parts.length < 3) :
    cmp_case op m instr parts line =
      "Error: Missing operands for " ++ "\x27" ++ instr ++ "\x27 in line: " ++ line := by
  unfold cmp_case
  rw [if_pos h]

theorem cmp_case_high (op m instr : String) (parts : List String) (line : String)
    (h : parts.length > 3) :
    cmp_case op m instr parts line =
      "Error: Unexpected operands for " ++ "\x27" ++ instr ++ "\x27 in line: " ++ line := by
  unfold cmp_case
  rw [if_neg (by omega), if_pos h]

theorem movnot_case_low (op m instr : String) (parts : List String) (line : String)
    (h : parts.length < 3) :
    movnot_case op m instr parts line =
      "Error: Missing operands for " ++ "\x27" ++ instr ++ "\x27 in line: " ++ line := by
  unfold movnot_case
  rw [if_pos h]

theorem movnot_case_high (op m instr : String) (parts : List String) (line : String)
    (h : parts.length > 3) :
    movnot_case op m instr parts line =
      "Error: Unexpected operands for " ++ "\x27" ++ instr ++ "\x27 in line: " ++ line := by
  unfold movnot_case
  rw [if_neg (by omega), if_pos h]

theorem ldst_case_low (op instr : String) (parts : List String) (line : String)
    (h : parts.length < 3) :
    ldst_case op instr parts line =
      .ok ("Error: Missing operands for " ++ "\x27" ++ instr ++ "\x27 in line: " ++ line) := by
  unfold ldst_case
  rw [if_pos h]

theorem ldst_case_high (op instr : String) (parts : List String) (line : String)
    (h : parts.length > 4) :
    ldst_case op instr parts line =
      .ok ("Error: Unexpected operands for " ++ "\x27" ++ instr ++
        "\x27 in line: " ++ line) := by
  unfold ldst_case
  rw [if_neg (by omega), if_pos h]

/-- C9: whenever the token count of an instruction line does not match its
class, `parse_instruction` returns exactly the operand-count diagnostic of
that class, before and instead of any register or immediate validation
(those checks appear only after the count checks, so they are never
consulted), for every class: ArithLogic (base-mnemonic dispatch),
ZeroOperand, Branch, Compare, UnaryRegImm and MemoryAccess. -/
theorem c9_thm (line1 : String) (address : Int) (labels_dict : List (String × Int))
    (instr : String) (rest : List String) (op : String)
    (htok : pyTokens (strip_label_text line1) = instr :: rest)
    (hop : List.lookup (pyRstripUH instr) opcode_map = some op) :
    (pyRstripUH instr ∈
        ["add", "sub", "mul", "div", "mod", "and", "or", "lsl", "lsr", "asr"] →
      (instr :: rest).length < 4 →
      parse_instruction line1 address labels_dict =
        .ok (some ("Error: Missing operands for instruction " ++ "\x27" ++ instr ++
          "\x27 in line: " ++ strip_label_text line1))) ∧
    (pyRstripUH instr ∈
        ["add", "sub", "mul", "div", "mod", "and", "or", "lsl", "lsr", "asr"] →
      (instr :: rest).length > 4 →
      parse_instruction line1 address labels_dict =
        .ok (some ("Error: Unexpected operands for instruction " ++ "\x27" ++ instr ++
          "\x27 in line: " ++ strip_label_text line1))) ∧
    (instr ∈ ["nop", "ret", "hlt"] → (instr :: rest).length > 1 →
      parse_instruction line1 address labels_dict =
        .ok (some ("Error: Unexpected operands for " ++ "\x27" ++ instr ++
          "\x27 in line: " ++ strip_label_text line1))) ∧
    (instr ∈ ["call", "b", "beq", "bgt"] → (instr :: rest).length < 2 →
      parse_instruction line1 address labels_dict =
        .ok (some ("Error: Missing offset for branch instruction " ++ "\x27" ++ instr ++
          "\x27 in line: " ++ strip_label_text line1))) ∧
    (instr ∈ ["call", "b", "beq", "bgt"] → (instr :: rest).length > 2 →
      parse_instruction line1 address labels_dict =
        .ok (some ("Error: Unexpected operands for " ++ "\x27" ++ instr ++
          "\x27 in line: " ++ strip_label_text line1))) ∧
    (instr = "cmp" → (instr :: rest).length < 3 →
      parse_instruction line1 address labels_dict =
        .ok (some ("Error: Missing operands for " ++ "\x27" ++ instr ++
          "\x27 in line: " ++ strip_label_text line1))) ∧
    (instr = "cmp" → (instr :: rest).length > 3 →
      parse_instruction line1 address labels_dict =
        .ok (some ("Error: Unexpected operands for " ++ "\x27" ++ instr ++
          "\x27 in line: " ++ strip_label_text line1))) ∧
    (instr ∈ ["not", "mov"] → (instr :: rest).length < 3 →
      parse_instruction line1 address labels_dict =
        .ok (some ("Error: Missing operands for " ++ "\x27" ++ instr ++
          "\x27 in line: " ++ strip_label_text line1))) ∧
    (instr ∈ ["not", "mov"] → (instr :: rest).length > 3 →
      parse_instruction line1 address labels_dict =
        .ok (some ("Error: Unexpected operands for " ++ "\x27" ++ instr ++
          "\x27 in line: " ++ strip_label_text line1))) ∧
    (instr ∈ ["ld", "st"] → (instr :: rest).length < 3 →
      parse_instruction line1 address labels_dict =
        .ok (some ("Error: Missing operands for " ++ "\x27" ++ instr ++
          "\x27 in line: " ++ strip_label_text line1))) ∧
    (instr ∈ ["ld", "st"] → (instr :: rest).length > 4 →
      parse_instruction line1 address labels_dict =
        .ok (some ("Error: Unexpected operands for " ++ "\x27" ++ instr ++
          "\x27 in line: " ++ strip_label_text line1))) := by
  refine ⟨?_, ?_, ?_, ?_, ?_, ?_, ?_, ?_, ?_, ?_, ?_⟩
  · intro hmem hlen
    rw [parse_dispatch_arith line1 address labels_dict instr rest op htok hop hmem,
      arith_case_low _ _ _ _ _ hlen]
  · intro hmem hlen
    rw [parse_dispatch_arith line1 address labels_dict instr rest op htok hop hmem,
      arith_case_high _ _ _ _ _ hlen]
  · intro hmem hlen
    fin_cases hmem <;>
      rw [parse_dispatch_zero line1 address labels_dict _ rest op htok hop (by decide)
        (by decide), zero_case_high _ _ _ _ hlen]
  · intro hmem hlen
    fin_cases hmem <;>
      rw [parse_dispatch_branch line1 address labels_dict _ rest op htok (by decide) hop
        (by decide) (by decide), branch_case_low _ _ _ _ _ _ hlen]
  · intro hmem hlen
    fin_cases hmem <;>
      rw [parse_dispatch_branch line1 address labels_dict _ rest op htok (by decide) hop
        (by decide) (by decide), branch_case_high _ _ _ _ _ _ hlen]
  · intro hmem hlen
    subst hmem
    rw [parse_dispatch_cmp line1 address labels_dict _ rest op htok hop (by decide)
      (by decide) (by decide) rfl, cmp_case_low _ _ _ _ _ hlen]
  · intro hmem hlen
    subst hmem
    rw [parse_dispatch_cmp line1 address labels_dict _ rest op htok hop (by decide)
      (by decide) (by decide) rfl, cmp_case_high _ _ _ _ _ hlen]
  · intro hmem hlen
    fin_cases hmem <;>
      rw [parse_dispatch_movnot line1 address labels_dict _ rest op htok hop (by decide)
        (by decide) (by decide) (by decide) (by decide),
        movnot_case_low _ _ _ _ _ hlen]
  · intro hmem hlen
    fin_cases hmem <;>
      rw [parse_dispatch_movnot line1 address labels_dict _ rest op htok hop (by decide)
        (by decide) (by decide) (by decide) (by decide),
        movnot_case_high _ _ _ _ _ hlen]
  · intro hmem hlen
    fin_cases hmem <;>
      rw [parse_dispatch_ldst line1 address labels_dict _ rest op htok hop (by decide)
        (by decide) (by decide) (by decide) (by decide) (by decide),
        ldst_case_low _ _ _ _ hlen] <;> rfl
  · intro hmem hlen
    fin_cases hmem <;>
      rw [parse_dispatch_ldst line1 address labels_dict _ rest op htok hop (by decide)
        (by decide) (by decide) (by decide) (by decide) (by decide),
        ldst_case_high _ _ _ _ hlen] <;> rfl

/-- C9 witness: `add r99, 5` has three tokens (too few for ArithLogic) AND
an invalid register token, and the result is exactly the operand-count
diagnostic. -/
theorem c9_witness :
    parse_instruction "add r99, 5" 0 [] =
      .ok (some ("Error: Missing operands for instruction " ++ "\x27" ++ "add" ++
        "\x27 in line: " ++ strip_label_text "add r99, 5")) :=
  (c9_thm "add r99, 5" 0 [] "add" ["r99", "5"] "00000" (by decide) (by decide)).1
    (by decide) (by decide)

/-! Claim C5. -/

theorem lit_not_unknown (pre : List Char) (h10 : 10 ≤ pre.length)
    (hne : pre.take 10 ≠ (("Error: Unknown instruction" : String)).data.take 10) :
    ∀ r : List Char, (pre ++ r).take 26 ≠ (("Error: Unknown instruction" : String)).data := by
  intro r h
  apply hne
  have h10' := congrArg (List.take 10) h
  rw [List.take_take] at h10'
  norm_num at h10'
  rwa [List.take_append_of_le_length h10] at h10'

theorem not_unknown_of_head (l r : List Char) (hne : l ≠ [])
    (hbits : ∀ c ∈ l, c = '0' ∨ c = '1') :
    (l ++ r).take 26 ≠ (("Error: Unknown instruction" : String)).data := by
  intro h
  cases l with
  | nil => exact hne rfl
  | cons c t =>
    rw [List.cons_append, show (26 : Nat) = 25 + 1 from rfl, List.take_succ_cons] at h
    rw [show (("Error: Unknown instruction" : String)).data =
      'E' :: (("rror: Unknown instruction" : String)).data from rfl] at h
    injection h with hc htl
    rcases hbits c (List.mem_cons_self c t) with rfl | rfl <;> exact absurd hc (by decide)

theorem unknown_msg_is_unknown (instr line : String) :
    isUnknownErr ("Error: Unknown instruction " ++ "\x27" ++ instr ++
      "\x27 in line: " ++ line) := by
  unfold isUnknownErr
  simp only [String.data_append, List.append_assoc]
  rw [List.take_append_of_le_length (by decide)]
  decide

theorem opdata_ne_nil (op : String) (hop : opBin5 op) : op.data ≠ [] := by
  intro hn
  have h5 := hop.1
  rw [hn] at h5
  exact absurd h5 (by decide)

theorem arith_case_not_unknown (op m instr : String) (parts : List String) (line : String)
    (hop : opBin5 op) : ¬ isUnknownErr (arith_case op m instr parts line) := by
  unfold arith_case
  repeat' ((try dsimp only); split)
  all_goals try dsimp only
  all_goals intro h
  all_goals unfold isUnknownErr at h
  all_goals first
    | unfold arith_reg_word pyLjust at h
    | unfold arith_imm_word at h
    | skip
  all_goals simp only [String.data_append, List.append_assoc] at h
  all_goals first
    | (refine lit_not_unknown _ ?_ ?_ _ h <;> decide)
    | exact not_unknown_of_head op.data _ (opdata_ne_nil op hop) hop.2 h

theorem zero_case_not_unknown (op instr : String) (parts : List String) (line : String)
    (hop : opBin5 op) : ¬ isUnknownErr (zero_case op instr parts line) := by
  unfold zero_case
  repeat' ((try dsimp only); split)
  all_goals try dsimp only
  all_goals intro h
  all_goals unfold isUnknownErr at h
  all_goals first
    | unfold zero_word pyLjust at h
    | skip
  all_goals simp only [String.data_append, List.append_assoc] at h
  all_goals first
    | (refine lit_not_unknown _ ?_ ?_ _ h <;> decide)
    | exact not_unknown_of_head op.data _ (opdata_ne_nil op hop) hop.2 h

theorem branch_case_not_unknown (op instr : String) (parts : List String) (line : String)
    (address : Int) (labels_dict : List (String × Int)) (hop : opBin5 op) :
    ¬ isUnknownErr (branch_case op instr parts line address labels_dict) := by
  unfold branch_case
  repeat' ((try dsimp only); split)
  all_goals try dsimp only
  all_goals intro h
  all_goals unfold isUnknownErr at h
  all_goals first
    | unfold branch_word_label at h
    | unfold branch_word_lit at h
    | skip
  all_goals simp only [String.data_append, List.append_assoc] at h
  all_goals first
    | (refine lit_not_unknown _ ?_ ?_ _ h <;> decide)
    | exact not_unknown_of_head op.data _ (opdata_ne_nil op hop) hop.2 h

theorem cmp_case_not_unknown (op m instr : String) (parts : List String) (line : String)
    (hop : opBin5 op) : ¬ isUnknownErr (cmp_case op m instr parts line) := by
  unfold cmp_case
  repeat' ((try dsimp only); split)
  all_goals try dsimp only
  all_goals intro h
  all_goals unfold isUnknownErr at h
  all_goals first
    | unfold cmp_reg_word pyLjust at h
    | unfold cmp_imm_word at h
    | skip
  all_goals simp only [String.data_append, List.append_assoc] at h
  all_goals first
    | (refine lit_not_unknown _ ?_ ?_ _ h <;> decide)
    | exact not_unknown_of_head op.data _ (opdata_ne_nil op hop) hop.2 h

theorem movnot_case_not_unknown (op m instr : String) (parts : List String)
    (line : String) (hop : opBin5 op) :
    ¬ isUnknownErr (movnot_case op m instr parts line) := by
  unfold movnot_case
  repeat' ((try dsimp only); split)
  all_goals try dsimp only
  all_goals intro h
  all_goals unfold isUnknownErr at h
  all_goals first
    | unfold movnot_reg_word pyLjust at h
    | unfold movnot_imm_word at h
    | skip
  all_goals simp only [String.data_append, List.append_assoc] at h
  all_goals first
    | (refine lit_not_unknown _ ?_ ?_ _ h <;> decide)
    | exact not_unknown_of_head op.data _ (opdata_ne_nil op hop) hop.2 h

theorem ldst_case_not_unknown (op instr : String) (parts : List String) (line : String)
    (hop : opBin5 op) :
    ∀ s, ldst_case op instr parts line = .ok s → ¬ isUnknownErr s := by
  intro s hs
  unfold ldst_case at hs
  dsimp only at hs
  repeat' ((try dsimp only at hs); split at hs)
  all_goals try exact Except.noConfusion hs
  all_goals injection hs with hseq
  all_goals subst hseq
  all_goals intro h
  all_goals unfold isUnknownErr at h
  all_goals first
    | unfold ldst_reg_word pyLjust at h
    | unfold ldst_imm_word pyLjust at h
    | skip
  all_goals simp only [String.data_append, List.append_assoc] at h
  all_goals first
    | (refine lit_not_unknown _ ?_ ?_ _ h <;> decide)
    | exact not_unknown_of_head op.data _ (opdata_ne_nil op hop) hop.2 h

theorem parse_unknown_of_none (line1 : String) (address : Int)
    (labels_dict : List (String × Int)) (instr : String) (rest : List String)
    (htok : pyTokens (strip_label_text line1) = instr :: rest)
    (hop : List.lookup (pyRstripUH instr) opcode_map = none) :
    parse_instruction line1 address labels_dict =
      .ok (some ("Error: Unknown instruction " ++ "\x27" ++ instr ++
        "\x27 in line: " ++ strip_label_text line1)) := by
  unfold parse_instruction
  dsimp only
  rw [htok]
  simp only [hop]

theorem parse_unknown_fallthrough (line1 : String) (address : Int)
    (labels_dict : List (String × Int)) (instr : String) (rest : List String)
    (op : String)
    (htok : pyTokens (strip_label_text line1) = instr :: rest)
    (hop : List.lookup (pyRstripUH instr) opcode_map = some op)
    (hna : pyRstripUH instr ∉
      ["add", "sub", "mul", "div", "mod", "and", "or", "lsl", "lsr", "asr"])
    (hnz : instr ∉ ["nop", "ret", "hlt"]) (hnb : instr ∉ ["call", "b", "beq", "bgt"])
    (hnc : ¬ instr = "cmp") (hnm : instr ∉ ["not", "mov"]) (hnl : instr ∉ ["ld", "st"]) :
    parse_instruction line1 address labels_dict =
      .ok (some ("Error: Unknown instruction " ++ "\x27" ++ instr ++
        "\x27 in line: " ++ strip_label_text line1)) := by
  unfold parse_instruction
  dsimp only
  rw [htok]
  simp only [hop]
  rw [if_neg hna, if_neg hnz, if_neg hnb, if_neg hnc, if_neg hnm, if_neg hnl]

/-- C5 (amended): `parse_instruction` yields an unknown-instruction
Diagnostic if and only if the line has a mnemonic token and either (a) the
base mnemonic (ALL trailing u/h stripped, per `rstrip("uh")`) is absent
from the opcode table, or (b) the base is present but the line matches no
class branch: only the ArithLogic branch tests the base mnemonic; every
other branch tests the full, unsuffixed mnemonic, so modifier-suffixed
forms such as `cmpu`, `movh`, `nopu` or `ldu` DO fall through to the
unknown-instruction diagnostic even though their base is in the table. -/
theorem c5_thm (line1 : String) (address : Int) (labels_dict : List (String × Int)) :
    (∃ s, parse_instruction line1 address labels_dict = .ok (some s) ∧ isUnknownErr s) ↔
      (∃ instr rest, pyTokens (strip_label_text line1) = instr :: rest ∧
        (List.lookup (pyRstripUH instr) opcode_map = none ∨
          (pyRstripUH instr ∉
              ["add", "sub", "mul", "div", "mod", "and", "or", "lsl", "lsr", "asr"] ∧
            instr ∉ ["nop", "ret", "hlt"] ∧ instr ∉ ["call", "b", "beq", "bgt"] ∧
            ¬ instr = "cmp" ∧ instr ∉ ["not", "mov"] ∧ instr ∉ ["ld", "st"]))) := by
  rcases htok : pyTokens (strip_label_text line1) with _ | ⟨instr, rest⟩
  · have hp : parse_instruction line1 address labels_dict = .ok none := by
      unfold parse_instruction
      dsimp only
      rw [htok]
    simp [hp, htok]
  · have hre : ∀ (C : String → Prop),
        ((∃ i r, (instr :: rest : List String) = i :: r ∧ C i) ↔ C instr) := by
      intro C
      constructor
      · rintro ⟨i, r, hir, hc⟩
        injection hir with hh ht
        subst hh
        exact hc
      · intro hc
        exact ⟨instr, rest, rfl, hc⟩
    rw [hre]
    rcases hop : List.lookup (pyRstripUH instr) opcode_map with _ | op
    · have hp := parse_unknown_of_none line1 address labels_dict instr rest htok hop
      constructor
      · intro _
        exact Or.inl rfl
      · intro _
        exact ⟨_, hp, unknown_msg_is_unknown instr (strip_label_text line1)⟩
    · have hb5 := opcode_bin5 _ _ hop
      by_cases h1 : pyRstripUH instr ∈
        ["add", "sub", "mul", "div", "mod", "and", "or", "lsl", "lsr", "asr"]
      · have hp := parse_dispatch_arith line1 address labels_dict instr rest op htok hop h1
        constructor
        · rintro ⟨s, hsome, hu⟩
          rw [hp] at hsome
          simp only [Except.ok.injEq, Option.some.injEq] at hsome
          subst hsome
          exact absurd hu (arith_case_not_unknown _ _ _ _ _ hb5)
        · rintro (hl | ⟨hna, -⟩)
          · exact absurd hl (by simp)
          · exact absurd h1 hna
      · by_cases h2 : instr ∈ ["nop", "ret", "hlt"]
        · have hp := parse_dispatch_zero line1 address labels_dict instr rest op htok hop
            h1 h2
          constructor
          · rintro ⟨s, hsome, hu⟩
            rw [hp] at hsome
            simp only [Except.ok.injEq, Option.some.injEq] at hsome
            subst hsome
            exact absurd hu (zero_case_not_unknown _ _ _ _ hb5)
          · rintro (hl | ⟨-, hnz, -⟩)
            · exact absurd hl (by simp)
            · exact absurd h2 hnz
        · by_cases h3 : instr ∈ ["call", "b", "beq", "bgt"]
          · have hp := parse_dispatch_branch line1 address labels_dict instr rest op htok
              h3 hop h1 h2
            constructor
            · rintro ⟨s, hsome, hu⟩
              rw [hp] at hsome
              simp only [Except.ok.injEq, Option.some.injEq] at hsome
              subst hsome
              exact absurd hu (branch_case_not_unknown _ _ _ _ _ _ hb5)
            · rintro (hl | ⟨-, -, hnb, -⟩)
              · exact absurd hl (by simp)
              · exact absurd h3 hnb
          · by_cases h4 : instr = "cmp"
            · have hp := parse_dispatch_cmp line1 address labels_dict instr rest op htok
                hop h1 h2 h3 h4
              constructor
              · rintro ⟨s, hsome, hu⟩
                rw [hp] at hsome
                simp only [Except.ok.injEq, Option.some.injEq] at hsome
                subst hsome
                exact absurd hu (cmp_case_not_unknown _ _ _ _ _ hb5)
              · rintro (hl | ⟨-, -, -, hnc, -⟩)
                · exact absurd hl (by simp)
                · exact absurd h4 hnc
            · by_cases h5 : instr ∈ ["not", "mov"]
              · have hp := parse_dispatch_movnot line1 address labels_dict instr rest op
                  htok hop h1 h2 h3 h4 h5
                constructor
                · rintro ⟨s, hsome, hu⟩
                  rw [hp] at hsome
                  simp only [Except.ok.injEq, Option.some.injEq] at hsome
                  subst hsome
                  exact absurd hu (movnot_case_not_unknown _ _ _ _ _ hb5)
                · rintro (hl | ⟨-, -, -, -, hnm, -⟩)
                  · exact absurd hl (by simp)
                  · exact absurd h5 hnm
              · by_cases h6 : instr ∈ ["ld", "st"]
                · have hp := parse_dispatch_ldst line1 address labels_dict instr rest op
                    htok hop h1 h2 h3 h4 h5 h6
                  constructor
                  · rintro ⟨s, hsome, hu⟩
                    rw [hp] at hsome
                    rcases hls : ldst_case op instr (instr :: rest)
                      (strip_label_text line1) with e | w
                    · rw [hls] at hsome
                      exact absurd hsome (by simp [Except.map])
                    · rw [hls] at hsome
                      simp only [Except.map, Except.ok.injEq, Option.some.injEq] at hsome
                      subst hsome
                      exact absurd hu
                        (ldst_case_not_unknown _ _ _ _ hb5 _ hls)
                  · rintro (hl | ⟨-, -, -, -, -, hnl⟩)
                    · exact absurd hl (by simp)
                    · exact absurd h6 hnl
                · have hp := parse_unknown_fallthrough line1 address labels_dict instr
                    rest op htok hop h1 h2 h3 h4 h5 h6
                  constructor
                  · intro _
                    exact Or.inr ⟨h1, h2, h3, h4, h5, h6⟩
                  · intro _
                    exact ⟨_, hp, unknown_msg_is_unknown instr (strip_label_text line1)⟩

/-- C5 counterexample: the base mnemonic of `cmpu` is `cmp`, which IS in
the opcode table, yet the claim-relevant input produces an
unknown-instruction diagnostic, refuting the claimed equivalence. -/
theorem c5_cex :
    parse_instruction "cmpu r1, 5" 0 [] =
        .ok (some ("Error: Unknown instruction " ++ "\x27" ++ "cmpu" ++
          "\x27 in line: " ++ "cmpu r1, 5")) ∧
      List.lookup (pyRstripUH "cmpu") opcode_map = some "00101" := ⟨rfl, rfl⟩

/-- C5 witness: `addx` has base `addx` absent from the table, so the
amended characterization yields an unknown-instruction diagnostic. -/
theorem c5_witness :
    ∃ s, parse_instruction "addx r1, r2, r3" 0 [] = .ok (some s) ∧ isUnknownErr s :=
  (c5_thm "addx r1, r2, r3" 0 []).mpr
    ⟨"addx", ["r1", "r2", "r3"], by decide, Or.inl (by decide)⟩
